import Mathlib

/-!
Verification of the p2p-python overlay client (`p2p_python/client.py`)
against its natural-language specification.

The embedding models the client's pure decision logic shallowly:
  * Python byte strings and text strings are `List Nat` (code points);
  * the wall clock is an `Int` (seconds), passed in as `now`;
  * neighbours ("clients") are identified by a stable id (`Nat`), matching
    the spec's identity comparison of neighbour handles;
  * collaborators that live outside `client.py` (the transport's
    `send_msg`, `hashlib.sha256`, RSA verification, randomness, and the
    concurrently mutated waiter table seen by a polling loop) enter as
    explicit parameters or oracles of the functions that call them;
  * fallible code returns `Option` / `Except`.
-/

namespace P2p

/-- Decidable equality for `Except` results, so that concrete runs of the
modelled fallible operations can be checked by `decide`. -/
instance {ε α : Type} [DecidableEq ε] [DecidableEq α] : DecidableEq (Except ε α) :=
  fun x y =>
    match x, y with
    | Except.ok a, Except.ok b =>
      if h : a = b then isTrue (by rw [h])
      else isFalse (by intro he; cases he; exact h rfl)
    | Except.ok _, Except.error _ => isFalse (by intro he; cases he)
    | Except.error _, Except.ok _ => isFalse (by intro he; cases he)
    | Except.error e, Except.error f =>
      if h : e = f then isTrue (by rw [h])
      else isFalse (by intro he; cases he; exact h rfl)

/-- A connected neighbour, identified by its stable local id
(`client.py` compares neighbour handles by identity). -/
abbrev Client := Nat

/-- The code points of a Lean string literal: used to embed Python string
literals such as `'file.'` as `List Nat` values. -/
def pyStr (s : String) : List Nat := s.data.map Char.toNat

/-- Python `str.lower()` on one ASCII code point: maps 65..90 (`A`..`Z`)
to 97..122 (`a`..`z`). -/
def lowerCp (n : Nat) : Nat := if 65 ≤ n ∧ n ≤ 90 then n + 32 else n

/-- Python `str.lower()` restricted to ASCII, the alphabet of hex
digests. -/
def lowerStr (s : List Nat) : List Nat := s.map lowerCp

/-- Blob file name for a hash: `'file.' + file_hash + '.dat'`
(client.py lines 198, 277, 452, 459, 491, 500). -/
def filePathOf (h : List Nat) : List Nat := pyStr "file." ++ h ++ pyStr ".dat"

/-- The blob store: the flat content-addressed tmp directory, as an
association list from file name to file contents.  A write prepends
(overwriting on lookup), mirroring `open(file_path, 'bw').write`. -/
def lookupFile (files : List (List Nat × List Nat)) (path : List Nat) :
    Option (List Nat) :=
  (files.find? (fun p => decide (p.1 = path))).map (fun p => p.2)

/-- `remove_file` (client.py lines 489-496): lowercase the hash and delete
the blob file if present (the boolean result is not modelled separately). -/
def removeFileEntry (files : List (List Nat × List Nat)) (h : List Nat) :
    List (List Nat × List Nat) :=
  files.filter (fun p => decide (p.1 ≠ filePathOf (lowerStr h)))

/-- Envelope type tag: `type/client/request`, `type/client/response`,
`type/client/ack` (client.py lines 25-27). -/
inductive MsgType where
  | request
  | response
  | ack
  deriving DecidableEq

/-- The closed command set `ClientCmd` (client.py lines 30-39). -/
inductive Cmd where
  | pingPong
  | broadcast
  | getPeerInfo
  | getPeers
  | checkReachable
  | fileCheck
  | fileGet
  | fileDelete
  | directCmd
  deriving DecidableEq

/-- Structured payloads (`msg['data']`) as far as the modelled commands
inspect them.  `fileDeleteReq` carries the `{raw, sign, pem}` dictionary
with `Option` marking key presence; `raw` is modelled already decoded into
the signed `(file_hash, time)` pair (`bjson` is a collaborator). -/
inductive Data where
  | null
  | bool (b : Bool)
  | int (n : Int)
  | str (s : List Nat)
  | bytes (b : List Nat)
  | fileCheckReq (hash : List Nat) (uuid : Nat)
  | fileCheckRes (have' : Bool) (asked : Bool)
  | fileGetReq (hash : List Nat) (asked : List (List Nat × Int))
  | fileDeleteReq (raw : Option (List Nat × Int)) (sign : Option (List Nat))
      (pem : Option (List Nat))
  deriving DecidableEq

/-- Message envelope `{type, cmd, data, time, uuid}` (spec §3). -/
structure Envelope where
  mtype : MsgType
  cmd : Cmd
  data : Data
  time : Int
  uuid : Nat
  deriving DecidableEq

/-- An entry payload of the waiter table `self.result`: the BROADCAST and
FILE_DELETE request handlers store the whole envelope, `type_response` and
`type_ack` store only the data field. -/
inductive Item where
  | env (e : Envelope)
  | dat (d : Data)
  deriving DecidableEq

/-- The first component of a `file_client_path` entry: either a neighbour
or the literal string `'I'm Sender.'` stored by `send_command`
(client.py line 415). -/
inductive Shipper where
  | senderMark
  | node (c : Client)
  deriving DecidableEq

/-- Modelled from the spec: `StackDict` from `p2p_python/utils.py`, which is
not under src/.  Spec §4.1: a keyed waiter table with `put(uuid, item)`
(no-op if the uuid is present), `contains`, `get`, and eviction of the
oldest half; items are kept in insertion order (oldest first). -/
structure StackDict (α : Type) where
  uuid2data : List (Nat × α)
  deriving DecidableEq

/-- `get`: the item stored under a uuid, if any. -/
def StackDict.get {α : Type} (sd : StackDict α) (u : Nat) : Option α :=
  (sd.uuid2data.find? (fun p => decide (p.1 = u))).map (fun p => p.2)

/-- `include`: whether a uuid has an entry (spec §4.1 `contains`). -/
def StackDict.include' {α : Type} (sd : StackDict α) (u : Nat) : Bool :=
  (sd.get u).isSome

/-- `put`: first-writer-wins insert (spec §3: later arrivals for the same
uuid are dropped). -/
def StackDict.put {α : Type} (sd : StackDict α) (u : Nat) (x : α) : StackDict α :=
  if sd.include' u then sd else ⟨sd.uuid2data ++ [(u, x)]⟩

/-- Number of entries (`len(self.result.uuid2data)`). -/
def StackDict.size {α : Type} (sd : StackDict α) : Nat := sd.uuid2data.length

/-- `del_old`: drop the oldest half of the entries (spec §4.1). -/
def StackDict.del_old {α : Type} (sd : StackDict α) : StackDict α :=
  ⟨sd.uuid2data.drop (sd.uuid2data.length / 2)⟩

/-- The mutable state of a `PeerClient` that the modelled operations touch
(client.py lines 47-53 and the blob store): the connected neighbour set,
the three `StackDict` tables, the broadcaster-marker list `waiting_ack`,
the items published so far on the two fan-out queues, and the blob files. -/
structure PeerClientState where
  clients : List Client
  result : StackDict (Client × Item)
  direct_cmd_result : StackDict Data
  file_client_path : StackDict (Shipper × Option Client)
  waiting_ack : List Nat
  broadcast_que : List (Client × Envelope)
  direct_cmd_que : List (Nat × Data)
  files : List (List Nat × List Nat)
  deriving DecidableEq

/-- `_send_msg` (client.py lines 379-396): iterate `allow`, skip members of
`deny`, try to send to each; a transport send failure (`sendOk c = false`)
is logged and skipped.  Returns the count of deliveries and the delivered
`(neighbour, envelope)` pairs in order. -/
def sendMsg (sendOk : Client → Bool) (msg : Envelope)
    (allow : List Client) (deny : List Client) :
    Nat × List (Client × Envelope) :=
  match allow with
  | [] => (0, [])
  | c :: rest =>
    let r := sendMsg sendOk msg rest deny
    if c ∈ deny then r
    else if sendOk c then (r.1 + 1, (c, msg) :: r.2)
    else r

/-- The broadcaster-marker trim (client.py lines 348-349): when
`waiting_ack` holds more than 50 uuids, keep `waiting_ack[25:]`. -/
def waitingAckTrim (l : List Nat) : List Nat :=
  if 50 < l.length then l.drop 25 else l

/-- The shared tail of `type_request` (client.py lines 333-349): send the
response/request envelope to `allow \ deny` (`allow = none` means every
connected neighbour), then, when `ack_list` is non-empty, send an ACK whose
data is the delivery count, then run garbage collection on the three
tables and the broadcaster-marker list. -/
def requestTail (st : PeerClientState) (listen : Nat) (temperate : Envelope)
    (allow : Option (List Client)) (deny ack_list : List Client)
    (sendOk : Client → Bool) :
    PeerClientState × List (Client × Envelope) :=
  let s1 := sendMsg sendOk temperate (allow.getD st.clients) deny
  let s2 :=
    if 0 < ack_list.length then
      sendMsg sendOk
        { temperate with mtype := MsgType.ack, data := Data.int (s1.1 : Int) }
        ack_list []
    else (0, [])
  let st := if listen * 100 < st.result.size then
    { st with result := st.result.del_old } else st
  let st := if listen * 100 < st.direct_cmd_result.size then
    { st with direct_cmd_result := st.direct_cmd_result.del_old } else st
  let st := if listen * 100 < st.file_client_path.size then
    { st with file_client_path := st.file_client_path.del_old } else st
  let st := { st with waiting_ack := waitingAckTrim st.waiting_ack }
  (st, s1.2 ++ s2.2)

/-- The `cmd == ClientCmd.BROADCAST` branch of `type_request`
(client.py lines 160-175) together with the shared tail (lines 333-349):
drop on loop suppression (`result` already has the uuid), own-echo
(`waiting_ack`), or a false `broadcast_check`; otherwise store
`(client, msg)` in the waiter table, publish it on the broadcast fan-out
queue, re-emit the payload as a REQUEST with the same uuid to every
neighbour but the sender, and ACK the sender with the delivery count.
`broadcast_check`'s `self` argument is dropped. -/
def type_request_broadcast (st : PeerClientState) (listen : Nat)
    (client : Client) (msg : Envelope) (now : Int) (sendOk : Client → Bool)
    (broadcast_check : Data → Bool) :
    PeerClientState × List (Client × Envelope) :=
  if st.result.include' msg.uuid then (st, [])
  else if msg.uuid ∈ st.waiting_ack then (st, [])
  else if !broadcast_check msg.data then (st, [])
  else
    let st := { st with result := st.result.put msg.uuid (client, Item.env msg) }
    let st := { st with broadcast_que := st.broadcast_que ++ [(client, msg)] }
    let temperate : Envelope :=
      ⟨MsgType.request, msg.cmd, msg.data, now, msg.uuid⟩
    requestTail st listen temperate none [client] [client] sendOk

/-- The `cmd == ClientCmd.FILE_DELETE` branch of `type_request`
(client.py lines 285-314) together with the shared tail (lines 333-349):
drop on a missing `{raw, sign, pem}` key, a signature older than 30 s, or
broadcast dedup; otherwise store the envelope, prepare re-propagation to
all neighbours but the sender plus an ACK, then verify the RSA signature
(`EncryptRSA.verify`, a collaborator: `sigValid`); on `ValueError` the
allow list is emptied (no re-propagation), on success the local blob is
removed. -/
def type_request_file_delete (st : PeerClientState) (listen : Nat)
    (client : Client) (msg : Envelope) (now : Int) (sendOk : Client → Bool)
    (sigValid : Bool) :
    PeerClientState × List (Client × Envelope) :=
  match msg.data with
  | Data.fileDeleteReq (some raw) (some _sign) (some _pem) =>
    if 30 < (now - raw.2).natAbs then (st, [])
    else if st.result.include' msg.uuid then (st, [])
    else if msg.uuid ∈ st.waiting_ack then (st, [])
    else
      let st := { st with result := st.result.put msg.uuid (client, Item.env msg) }
      let temperate : Envelope :=
        ⟨MsgType.request, msg.cmd, msg.data, now, msg.uuid⟩
      if sigValid then
        let st := { st with files := removeFileEntry st.files raw.1 }
        requestTail st listen temperate none [client] [client] sendOk
      else
        requestTail st listen temperate (some []) [client] [client] sendOk
  | _ => (st, [])

/-- The `cmd == ClientCmd.DIRECT_CMD` branch of `type_request`
(client.py lines 316-329) as seen by the dispatcher thread: publish
`(uuid, data)` on the direct-cmd fan-out queue and run the shared tail
with empty allow/deny/ack lists (the spawned waiting thread is modelled by
`direct_cmd_run` below). -/
def type_request_direct_cmd (st : PeerClientState) (listen : Nat)
    (msg : Envelope) (now : Int) (sendOk : Client → Bool) :
    PeerClientState × List (Client × Envelope) :=
  let st := { st with direct_cmd_que := st.direct_cmd_que ++ [(msg.uuid, msg.data)] }
  requestTail st listen ⟨MsgType.response, msg.cmd, Data.null, now, msg.uuid⟩
    (some []) [] [] sendOk

/-- Control state of the `direct_cmd` waiting thread (client.py lines
317-327): `running c` is the `while c > 0` loop with counter value `c`;
`done true` means the loop exited via `break` (a reply was found),
`done false` means the `while`'s `else` ran (reply stays null). -/
inductive DirectCmdStatus where
  | running (c : Nat)
  | done (found : Bool)
  deriving DecidableEq

/-- One iteration of the `direct_cmd` waiting loop (client.py lines
318-323): check `c > 0`; sleep 20 ms; `break` when the uuid shows up in
`direct_cmd_result` (`incl`).  As in the source, the body never changes
`c`. -/
def direct_cmd_step (incl : Bool) (s : DirectCmdStatus) : DirectCmdStatus :=
  match s with
  | DirectCmdStatus.running c =>
    if 0 < c then
      (if incl then DirectCmdStatus.done true else DirectCmdStatus.running c)
    else DirectCmdStatus.done false
  | DirectCmdStatus.done b => DirectCmdStatus.done b

/-- The `direct_cmd` waiting loop after `n` polls, with `incl i` telling
whether an external handler had deposited a reply under the uuid by poll
`i`; the counter starts at 200 (client.py line 318). -/
def direct_cmd_run (incl : Nat → Bool) : Nat → DirectCmdStatus
  | 0 => DirectCmdStatus.running 200
  | n + 1 => direct_cmd_step (incl n) (direct_cmd_run incl n)

/-- The `RESPONSE` leg of the dispatcher, `type_response` (client.py lines
353-371): for a FILE_GET response with a recorded relay path, drop it when
the responder differs from `ship_to`; otherwise store `(client, data)` in
the waiter table first-writer-wins. -/
def type_response (st : PeerClientState) (client : Client) (msg : Envelope) :
    PeerClientState :=
  let f_drop : Bool :=
    if msg.cmd = Cmd.fileGet then
      if st.file_client_path.include' msg.uuid then
        match st.file_client_path.get msg.uuid with
        | some (_ship_from, ship_to) => decide (ship_to ≠ some client)
        | none => false
      else false
    else false
  if f_drop then st
  else if st.result.include' msg.uuid then st
  else { st with result := st.result.put msg.uuid (client, Item.dat msg.data) }

/-- The `ACK` leg of the dispatcher, `type_ack` (client.py lines 373-377):
store `(client, data)` first-writer-wins. -/
def type_ack (st : PeerClientState) (client : Client) (msg : Envelope) :
    PeerClientState :=
  if st.result.include' msg.uuid then st
  else { st with result := st.result.put msg.uuid (client, Item.dat msg.data) }

/-- Errors raised by `send_command`: `ConnectionError('No client
connection.')`, the `assert` failures of the FILE_GET leg,
`ConnectionError('Not found client')`, `ConnectionError('Need to wait cmd
finish.')`, and `TimeoutError` (client.py lines 398-445). -/
inductive SendErr where
  | noConnection
  | assertFail
  | notFoundClient
  | needWait
  | timeout (cmd : Cmd) (uuid : Nat)
  deriving DecidableEq

/-- `int(wait / span)` with `span = 0.01` (client.py lines 431-432): the
number of 10 ms polls for a wait of `wait` seconds. -/
def pollCount (wait : ℚ) : Nat := (100 * wait.num / (wait.den : Int)).toNat

/-- The first entry the polling loop sees: `resAt i` is what
`self.result.get(uuid)` would return at poll `i` (the table is filled
concurrently by the dispatcher), and the loop takes the first poll at
which it is present. -/
def firstHit (resAt : Nat → Option (Client × Item)) (n : Nat) :
    Option (Client × Item) :=
  (List.range n).findSome? resAt

/-- The send-and-wait tail of `send_command` (client.py lines 427-445):
send the request to `targets`, fail with `needWait` when `wait < 1`,
otherwise poll every 10 ms for up to `wait` seconds; on a match return the
stored entry — except that for BROADCAST the request envelope is
republished on the broadcast fan-out queue and the `data` *argument* is
returned; on timeout remove the targeted connection and fail. -/
def send_command_poll (st : PeerClientState) (temperate : Envelope)
    (cmd : Cmd) (data : Data) (clientVar : Option Client)
    (targets : List Client) (wait : ℚ) (sendOk : Client → Bool)
    (resAt : Nat → Option (Client × Item)) :
    PeerClientState × List (Client × Envelope) × Except SendErr (Client × Item) :=
  let sent := (sendMsg sendOk temperate targets []).2
  if wait < 1 then (st, sent, Except.error SendErr.needWait)
  else
    match firstHit resAt (pollCount wait) with
    | some (cl, item) =>
      if cmd = Cmd.broadcast then
        ({ st with broadcast_que := st.broadcast_que ++ [(cl, temperate)] },
          sent, Except.ok (cl, Item.dat data))
      else (st, sent, Except.ok (cl, item))
    | none =>
      let st' :=
        match clientVar with
        | some c => { st with clients := st.clients.erase c }
        | none => st
      (st', sent, Except.error (SendErr.timeout cmd temperate.uuid))

/-- `send_command` (client.py lines 398-445).  `uuid` is the fresh random
correlation id, `now` the wall clock, `pick` the neighbour
`random.choice` would pick when no target is given, `sendOk` the
transport, `resAt` the concurrently-filled view of `self.result.get(uuid)`
at each poll.  BROADCAST and FILE_DELETE target every neighbour and
pre-register the uuid in `waiting_ack`; FILE_GET records the relay-path
marker, requires an explicitly given connected neighbour and forces
`wait = 20`; other commands target the given (or a random) neighbour. -/
def send_command (st : PeerClientState) (cmd : Cmd) (data : Data)
    (clientArg : Option Client) (wait : ℚ) (uuid : Nat) (now : Int)
    (pick : Client) (sendOk : Client → Bool)
    (resAt : Nat → Option (Client × Item)) :
    PeerClientState × List (Client × Envelope) × Except SendErr (Client × Item) :=
  let temperate : Envelope := ⟨MsgType.request, cmd, data, now, uuid⟩
  if st.clients.length = 0 then (st, [], Except.error SendErr.noConnection)
  else if cmd = Cmd.broadcast ∨ cmd = Cmd.fileDelete then
    let st1 := { st with waiting_ack := st.waiting_ack ++ [uuid] }
    send_command_poll st1 temperate cmd data clientArg st1.clients wait sendOk resAt
  else if cmd = Cmd.fileGet then
    let st1 := { st with
      file_client_path := st.file_client_path.put uuid (Shipper.senderMark, clientArg) }
    match clientArg with
    | none => (st1, [], Except.error SendErr.assertFail)
    | some c =>
      if c ∈ st1.clients then
        send_command_poll st1 temperate cmd data (some c) [c] 20 sendOk resAt
      else (st1, [], Except.error SendErr.assertFail)
  else
    match clientArg with
    | none => send_command_poll st temperate cmd data (some pick) [pick] wait sendOk resAt
    | some c =>
      if c ∈ st.clients then
        send_command_poll st temperate cmd data (some c) [c] wait sendOk resAt
      else (st, [], Except.error SendErr.notFoundClient)

/-- `share_file` (client.py lines 447-455): reject data of
`MAX_RECEIVE_SIZE + 1000` bytes or more (`none` models the
`AssertionError`), otherwise write the blob under
`file.<digest>.dat` and return the digest.  `H` is `sha256(·).hexdigest()`
(hashlib is a collaborator), `maxReceiveSize` the transport constant
imported from `core.py`. -/
def share_file (st : PeerClientState) (data : List Nat)
    (H : List Nat → List Nat) (maxReceiveSize : Nat) :
    Option (PeerClientState × List Nat) :=
  if data.length < maxReceiveSize + 1000 then
    let file_hash := H data
    some ({ st with files := (filePathOf file_hash, data) :: st.files }, file_hash)
  else none

/-- Failure modes of `get_file`: the three `FileReceiveError` cases of
spec §7 plus a propagated `send_command` exception (the FILE_CHECK /
FILE_GET calls in `get_file` are not wrapped in `try`). -/
inductive GetFileErr where
  | noClient
  | nullData
  | hashMismatch
  | sendFail (e : SendErr)
  deriving DecidableEq

/-- What `get_file` returns: `True` when `only_check` is set, else the
blob bytes. -/
inductive GetFileRet where
  | checked
  | raw (b : List Nat)
  deriving DecidableEq

/-- The network face of `get_file`: `order` is the shuffled copy of the
neighbour list it walks, `checks c d` the outcome of
`send_command(FILE_CHECK, d, c)` reduced to `(msg['have'], msg['asked'])`,
`fallbackPick` the `random.choice` fallback, `c2pf` the transport's
`client2peer_format`, and `fetched hopeful d` the outcome of
`send_command(FILE_GET, d, hopeful)` as `(from_client, raw-or-null)`. -/
structure GetFileNet where
  order : List Client
  checks : Client → Data → Except SendErr (Bool × Bool)
  fallbackPick : Client
  c2pf : Client → List Nat × Int
  fetched : Client → Data → Except SendErr (Client × Option (List Nat))

/-- The FILE_CHECK walk of `get_file` (client.py lines 468-474): ask each
neighbour in order, stop at the first `have=true`; an exception from
`send_command` propagates; when none has the file, fall back to a random
neighbour. -/
def get_file_walk (checks : Client → Data → Except SendErr (Bool × Bool))
    (checkData : Data) (fallback : Client) :
    List Client → Except SendErr Client
  | [] => Except.ok fallback
  | c :: rest =>
    match checks c checkData with
    | Except.error e => Except.error e
    | Except.ok r =>
      if r.1 then Except.ok c else get_file_walk checks checkData fallback rest

/-- `get_file` (client.py lines 457-487): lowercase the hash; serve the
blob locally when present; otherwise walk the neighbours with FILE_CHECK,
issue FILE_GET to the hopeful neighbour, fail on a null reply, verify the
digest of the returned bytes against the lowercased hash, and on success
persist the blob and return it. -/
def get_file (st : PeerClientState) (file_hash : List Nat) (only_check : Bool)
    (H : List Nat → List Nat) (net : GetFileNet) :
    Except GetFileErr (PeerClientState × GetFileRet) :=
  let fh := lowerStr file_hash
  let file_path := filePathOf fh
  match lookupFile st.files file_path with
  | some raw =>
    Except.ok (st, if only_check then GetFileRet.checked else GetFileRet.raw raw)
  | none =>
    if st.clients.length = 0 then Except.error GetFileErr.noClient
    else
      match get_file_walk net.checks (Data.fileCheckReq fh 0) net.fallbackPick
          net.order with
      | Except.error e => Except.error (GetFileErr.sendFail e)
      | Except.ok hopeful =>
        match net.fetched hopeful (Data.fileGetReq fh (st.clients.map net.c2pf)) with
        | Except.error e => Except.error (GetFileErr.sendFail e)
        | Except.ok (_from, none) => Except.error GetFileErr.nullData
        | Except.ok (_from, some raw) =>
          if H raw = fh then
            Except.ok ({ st with files := (file_path, raw) :: st.files },
              if only_check then GetFileRet.checked else GetFileRet.raw raw)
          else Except.error GetFileErr.hashMismatch

/-- The REQUEST deliveries a fully accepted BROADCAST produces: the
re-emitted request envelope, delivered to every connected neighbour other
than the sender whose transport send succeeds. -/
def broadcastDeliveries (st : PeerClientState) (client : Client)
    (msg : Envelope) (now : Int) (sendOk : Client → Bool) :
    List (Client × Envelope) :=
  (st.clients.filter fun c => !decide (c ∈ ([client] : List Client)) && sendOk c).map
    fun c => (c, ⟨MsgType.request, msg.cmd, msg.data, now, msg.uuid⟩)

/-- The ACK delivery a fully accepted BROADCAST produces: sent to the
sender, carrying the number of REQUEST deliveries. -/
def broadcastAck (st : PeerClientState) (client : Client) (msg : Envelope)
    (now : Int) (sendOk : Client → Bool) : List (Client × Envelope) :=
  if sendOk client then
    [(client, ⟨MsgType.ack, msg.cmd,
        Data.int ((broadcastDeliveries st client msg now sendOk).length : Int),
        now, msg.uuid⟩)]
  else []

/-- A two-neighbour state with empty tables, for concrete runs. -/
def fdSt0 : PeerClientState := ⟨[0, 1], ⟨[]⟩, ⟨[]⟩, ⟨[]⟩, [], [], [], []⟩

/-- A well-formed FILE_DELETE request signed at time 100. -/
def fdMsg0 : Envelope :=
  ⟨MsgType.request, Cmd.fileDelete,
    Data.fileDeleteReq (some (pyStr "aa", 100)) (some [1]) (some (pyStr "p.pem")),
    100, 123456789⟩

/-- A one-neighbour state (neighbour 2) with empty tables. -/
def scSt0 : PeerClientState := ⟨[2], ⟨[]⟩, ⟨[]⟩, ⟨[]⟩, [], [], [], []⟩

/-- A waiter-table view that already holds `(2, 3)` at every poll. -/
def scRes0 : Nat → Option (Client × Item) := fun _ => some (2, Item.dat (Data.int 3))

/-- A transport for which every send succeeds. -/
def okAll : Client → Bool := fun _ => true

/-- A waiter-table view that never fills. -/
def resNone : Nat → Option (Client × Item) := fun _ => none

/-- A digest collaborator that answers the lowercase hex string `ab` for
every input (real `sha256(·).hexdigest()` output is always lowercase). -/
def gfH0 : List Nat → List Nat := fun _ => pyStr "ab"

/-- A one-neighbour state (neighbour 1) with an empty blob store. -/
def gfSt0 : PeerClientState := ⟨[1], ⟨[]⟩, ⟨[]⟩, ⟨[]⟩, [], [], [], []⟩

/-- A network face whose single neighbour reports `have=true` and serves
the bytes `[7]`. -/
def gfNet0 : GetFileNet :=
  ⟨[1], fun _ _ => Except.ok (true, false), 1, fun _ => (pyStr "h", 1),
    fun _ _ => Except.ok (1, some [7])⟩

/-- The state of `gfSt0` after the blob `[7]` is fetched and persisted
under the digest `ab`. -/
def gfStW : PeerClientState := { gfSt0 with files := [(filePathOf (pyStr "ab"), [7])] }

/-- A state whose relay-path table routes uuid 9 to neighbour 1. -/
def c2St : PeerClientState :=
  ⟨[1, 2], ⟨[]⟩, ⟨[]⟩, ⟨[(9, (Shipper.node 1, some 1))]⟩, [], [], [], []⟩

/-- A FILE_GET response envelope for uuid 9. -/
def c2Msg : Envelope := ⟨MsgType.response, Cmd.fileGet, Data.bytes [3], 0, 9⟩

/-! ## Helper lemmas -/

/-- ASCII lowering is idempotent on one code point. -/
theorem lowerCp_idem (n : Nat) : lowerCp (lowerCp n) = lowerCp n := by
  unfold lowerCp
  by_cases h : 65 ≤ n ∧ n ≤ 90
  · rw [if_pos h, if_neg (by omega)]
  · rw [if_neg h, if_neg h]

/-- ASCII lowering is idempotent, hence `get_file`'s initial
`file_hash.lower()` is a projection. -/
theorem lowerStr_idem (s : List Nat) : lowerStr (lowerStr s) = lowerStr s := by
  induction s with
  | nil => rfl
  | cons a t ih =>
    simp only [lowerStr, List.map_cons] at ih ⊢
    rw [lowerCp_idem]
    exact congrArg _ ih

/-- `_send_msg` delivers exactly to the members of `allow` that are not
denied and whose transport send succeeds, in order, and returns their
count. -/
theorem sendMsg_eq (sendOk : Client → Bool) (m : Envelope) (deny : List Client) :
    ∀ allow : List Client,
      sendMsg sendOk m allow deny =
        (((allow.filter fun c => !decide (c ∈ deny) && sendOk c).map
            fun c => (c, m)).length,
          (allow.filter fun c => !decide (c ∈ deny) && sendOk c).map
            fun c => (c, m))
  | [] => rfl
  | c :: rest => by
    simp only [sendMsg, sendMsg_eq sendOk m deny rest, List.filter_cons]
    by_cases hd : c ∈ deny
    · simp [hd]
    · cases hs : sendOk c
      · simp [hd, hs]
      · simp [hd, hs]

/-- A fresh `put` is visible through `get`. -/
theorem StackDict.get_put_self {α : Type} (sd : StackDict α) (u : Nat) (x : α)
    (h : sd.get u = none) : (sd.put u x).get u = some x := by
  have hf : sd.uuid2data.find? (fun p => decide (p.1 = u)) = none := by
    unfold StackDict.get at h
    cases hx : sd.uuid2data.find? (fun p => decide (p.1 = u)) <;> simp [hx] at h ⊢
  have hput : (sd.put u x).uuid2data = sd.uuid2data ++ [(u, x)] := by
    unfold StackDict.put StackDict.include'
    simp [h]
  unfold StackDict.get
  rw [hput]
  simp [List.find?_append, hf]

/-- A fresh `put` stays visible through `get` after `del_old` evicts the
oldest half: the new entry is the newest. -/
theorem StackDict.get_del_old_put {α : Type} (sd : StackDict α) (u : Nat) (x : α)
    (h : sd.get u = none) : ((sd.put u x).del_old).get u = some x := by
  have hf : sd.uuid2data.find? (fun p => decide (p.1 = u)) = none := by
    unfold StackDict.get at h
    cases hx : sd.uuid2data.find? (fun p => decide (p.1 = u)) <;> simp [hx] at h ⊢
  have hput : (sd.put u x).uuid2data = sd.uuid2data ++ [(u, x)] := by
    unfold StackDict.put StackDict.include'
    simp [h]
  unfold StackDict.del_old StackDict.get
  rw [hput]
  have hk : (sd.uuid2data ++ [(u, x)]).length / 2 ≤ sd.uuid2data.length := by
    simp only [List.length_append, List.length_cons, List.length_nil]
    omega
  rw [List.drop_append_of_le_length hk]
  have hdrop : ∀ k, (sd.uuid2data.drop k).find? (fun p => decide (p.1 = u)) = none := by
    intro k
    rw [List.find?_eq_none]
    intro p hp
    exact List.find?_eq_none.mp hf p (List.drop_subset k sd.uuid2data hp)
  simp [List.find?_append, hdrop]

/-! ## Claim theorems -/

/-- Claim C2: when a FILE_GET RESPONSE arrives for a uuid with a recorded
relay path `(ship_from, ship_to)` and the responding neighbour is not
`ship_to`, `type_response` drops it — the state is returned unchanged —
and conversely any FILE_GET response that does change the state came from
`ship_to` itself. -/
theorem type_response_origin_check (st : PeerClientState) (client : Client)
    (msg : Envelope) (sf : Shipper) (shipTo : Option Client)
    (hcmd : msg.cmd = Cmd.fileGet)
    (hpath : st.file_client_path.get msg.uuid = some (sf, shipTo)) :
    (shipTo ≠ some client → type_response st client msg = st) ∧
    (type_response st client msg ≠ st → shipTo = some client) := by
  have hinc : st.file_client_path.include' msg.uuid = true := by
    unfold StackDict.include'
    rw [hpath]
    rfl
  constructor
  · intro hne
    unfold type_response
    simp [hcmd, hinc, hpath, hne]
  · intro hch
    by_contra hcon
    apply hch
    unfold type_response
    simp [hcmd, hinc, hpath, hcon]

/-- Witness for C2 at a concrete state: a response from neighbour 2 is
dropped when the relay path points at neighbour 1. -/
theorem type_response_origin_check_witness :
    type_response c2St 2 c2Msg = c2St ∧ (some 1 : Option Client) = some 1 :=
  ⟨(type_response_origin_check c2St 2 c2Msg (Shipper.node 1) (some 1) rfl rfl).1
      (by decide),
    (type_response_origin_check c2St 1 c2Msg (Shipper.node 1) (some 1) rfl rfl).2
      (by decide)⟩

/-- Claim C4 (against the code): with no external handler ever depositing
a reply, the DIRECT_CMD waiting loop never leaves its `running` state —
after any number of polls it is still `running 200`, because the loop
counter is never decremented; the claimed `≤ 200 polls, then reply null`
behaviour is unreachable. -/
theorem direct_cmd_never_finishes (n : Nat) :
    direct_cmd_run (fun _ => false) n = DirectCmdStatus.running 200 := by
  induction n with
  | zero => rfl
  | succ k ih => simp [direct_cmd_run, ih, direct_cmd_step]

/-- Claim C8 (amended): when the broadcaster-marker list holds more than
50 uuids at trim time, the trim drops the oldest 25 entries — so the
resulting length is the old length minus 25, which is at most 50 exactly
when the list held at most 75 entries. -/
theorem waiting_ack_trim_spec (l : List Nat) (h : 50 < l.length) :
    waitingAckTrim l = l.drop 25 ∧
    (waitingAckTrim l).length = l.length - 25 ∧
    ((waitingAckTrim l).length ≤ 50 ∨ 75 < l.length) := by
  unfold waitingAckTrim
  rw [if_pos h]
  refine ⟨rfl, by simp, ?_⟩
  by_cases h75 : l.length ≤ 75
  · left
    simp
    omega
  · right
    omega

/-- Witness for C8 at length 60: the trim keeps 35 entries, within the
cap. -/
theorem waiting_ack_trim_spec_witness :
    waitingAckTrim (List.range 60) = (List.range 60).drop 25 ∧
    (waitingAckTrim (List.range 60)).length = 60 - 25 ∧
    ((waitingAckTrim (List.range 60)).length ≤ 50 ∨ 75 < (List.range 60).length) :=
  waiting_ack_trim_spec (List.range 60) (by decide)

/-- Counterexample for C8 as stated: at length 76 the trim runs (76 > 50)
yet leaves 51 entries, exceeding the cap of 50. -/
theorem waiting_ack_trim_cex :
    50 < (List.range 76).length ∧
    ¬ (waitingAckTrim (List.range 76)).length ≤ 50 := by
  constructor
  · decide
  · decide

/-- Claim C10: `get_file` is case-insensitive in its hash argument — on
every state, flag, digest collaborator and network face it behaves
identically on `h` and on the lowercased `h`, since it lowercases the
hash before the local lookup, the FILE_CHECK/FILE_GET requests, the
verification and the persisted file name. -/
theorem get_file_case_insensitive (st : PeerClientState) (h : List Nat)
    (oc : Bool) (H : List Nat → List Nat) (net : GetFileNet) :
    get_file st h oc H net = get_file st (lowerStr h) oc H net := by
  unfold get_file
  rw [lowerStr_idem]

/-- Claim C5 (amended): on a FILE_DELETE request that reaches signature
verification and fails it, the handler re-emits nothing — every delivered
message is an ACK with data 0 addressed to the sender, and when the
transport send to the sender succeeds, exactly that one ACK is sent. -/
theorem file_delete_bad_signature (st : PeerClientState) (listen : Nat)
    (client : Client) (msg : Envelope) (now : Int) (sendOk : Client → Bool)
    (fh : List Nat) (t : Int) (sg pm : List Nat)
    (hdata : msg.data = Data.fileDeleteReq (some (fh, t)) (some sg) (some pm))
    (htime : (now - t).natAbs ≤ 30)
    (hdup : st.result.include' msg.uuid = false)
    (hack : msg.uuid ∉ st.waiting_ack) :
    (∀ p ∈ (type_request_file_delete st listen client msg now sendOk false).2,
        p.1 = client ∧ p.2.mtype = MsgType.ack ∧ p.2.data = Data.int 0) ∧
    (sendOk client = true →
      (type_request_file_delete st listen client msg now sendOk false).2 =
        [(client, ⟨MsgType.ack, msg.cmd, Data.int 0, now, msg.uuid⟩)]) := by
  have hsent :
      (type_request_file_delete st listen client msg now sendOk false).2 =
        if sendOk client then
          [(client, ⟨MsgType.ack, msg.cmd, Data.int 0, now, msg.uuid⟩)]
        else [] := by
    simp only [type_request_file_delete, hdata]
    rw [if_neg (by omega), if_neg (by simp [hdup]), if_neg hack, if_neg (by simp)]
    cases hok : sendOk client
    · simp [requestTail, sendMsg, hok]
    · simp [requestTail, sendMsg, hok]
  constructor
  · intro p hp
    rw [hsent] at hp
    by_cases hok : sendOk client = true
    · rw [if_pos hok] at hp
      rw [List.mem_singleton] at hp
      subst hp
      exact ⟨rfl, rfl, rfl⟩
    · rw [if_neg hok] at hp
      cases hp
  · intro hok
    rw [hsent, if_pos hok]

/-- Witness for C5 at a concrete request: with the signature invalid, the
only delivered message is the ACK with data 0 to the sender. -/
theorem file_delete_bad_signature_witness :
    (type_request_file_delete fdSt0 15 0 fdMsg0 100 okAll false).2 =
      [(0, ⟨MsgType.ack, Cmd.fileDelete, Data.int 0, 100, 123456789⟩)] :=
  (file_delete_bad_signature fdSt0 15 0 fdMsg0 100 okAll (pyStr "aa") 100 [1]
      (pyStr "p.pem") rfl (by decide) (by decide) (by decide)).2 rfl

/-- Counterexample for C5 as stated: on a signature failure the handler
does not stay silent — the delivered-message list is non-empty (an ACK
goes back to the sender). -/
theorem file_delete_bad_signature_cex :
    (type_request_file_delete fdSt0 15 0 fdMsg0 100 okAll false).2 ≠ [] := by
  decide

/-- Claim C7: a blob accepted by `share_file` (its digest being lowercase,
as a real hex digest is) is immediately served back by `get_file` on the
returned hash from the local blob store, with the same state and
independently of the whole network face — no network request is
consulted. -/
theorem share_file_get_file_roundtrip (st : PeerClientState) (b : List Nat)
    (H : List Nat → List Nat) (maxR : Nat)
    (hlen : b.length < maxR + 1000) (hlow : lowerStr (H b) = H b) :
    share_file st b H maxR =
      some ({ st with files := (filePathOf (H b), b) :: st.files }, H b) ∧
    ∀ net : GetFileNet,
      get_file { st with files := (filePathOf (H b), b) :: st.files } (H b)
          false H net =
        Except.ok ({ st with files := (filePathOf (H b), b) :: st.files },
          GetFileRet.raw b) := by
  constructor
  · unfold share_file
    rw [if_pos hlen]
  · intro net
    unfold get_file
    rw [hlow]
    simp [lookupFile]

/-- Witness for C7 at a concrete blob: sharing `[1, 2]` under digest `ab`
and reading it back. -/
theorem share_file_get_file_roundtrip_witness :
    share_file gfSt0 [1, 2] gfH0 500000 =
      some ({ gfSt0 with files := [(filePathOf (gfH0 [1, 2]), [1, 2])] },
        gfH0 [1, 2]) ∧
    get_file { gfSt0 with files := [(filePathOf (gfH0 [1, 2]), [1, 2])] }
        (gfH0 [1, 2]) false gfH0 gfNet0 =
      Except.ok ({ gfSt0 with files := [(filePathOf (gfH0 [1, 2]), [1, 2])] },
        GetFileRet.raw [1, 2]) :=
  ⟨(share_file_get_file_roundtrip gfSt0 [1, 2] gfH0 500000 (by decide) (by decide)).1,
    (share_file_get_file_roundtrip gfSt0 [1, 2] gfH0 500000 (by decide) (by decide)).2
      gfNet0⟩

/-- Claim C9: with a non-empty neighbour set, a command other than
FILE_GET and `wait < 1`, `send_command` fails with an error whose outcome
is the same for every possible waiter-table history — it never waits for
or polls for a response (the error is `needWait`, or `notFoundClient`
when the requested neighbour is unknown, raised even earlier). -/
theorem send_command_wait_lt_one (st : PeerClientState) (cmd : Cmd)
    (data : Data) (clientArg : Option Client) (wait : ℚ) (uuid : Nat)
    (now : Int) (pick : Client) (sendOk : Client → Bool)
    (hne : st.clients ≠ []) (hfg : cmd ≠ Cmd.fileGet) (hw : wait < 1) :
    ∀ resAt resAt' : Nat → Option (Client × Item),
      send_command st cmd data clientArg wait uuid now pick sendOk resAt =
        send_command st cmd data clientArg wait uuid now pick sendOk resAt' ∧
      ((send_command st cmd data clientArg wait uuid now pick sendOk resAt).2.2 =
          Except.error SendErr.needWait ∨
        (send_command st cmd data clientArg wait uuid now pick sendOk resAt).2.2 =
          Except.error SendErr.notFoundClient) := by
  intro resAt resAt'
  have hlen : ¬ st.clients.length = 0 := by
    simpa [List.length_eq_zero] using hne
  have hpoll : ∀ (s : PeerClientState) (tp : Envelope) (c : Cmd) (d : Data)
      (cv : Option Client) (tg : List Client) (r : Nat → Option (Client × Item)),
      send_command_poll s tp c d cv tg wait sendOk r =
        (s, (sendMsg sendOk tp tg []).2, Except.error SendErr.needWait) := by
    intro s tp c d cv tg r
    unfold send_command_poll
    rw [if_pos hw]
  by_cases hbd : cmd = Cmd.broadcast ∨ cmd = Cmd.fileDelete
  · refine ⟨?_, Or.inl ?_⟩ <;>
      simp only [send_command, if_neg hlen, if_pos hbd, hpoll]
  · cases clientArg with
    | none =>
      refine ⟨?_, Or.inl ?_⟩ <;>
        simp only [send_command, if_neg hlen, if_neg hbd, if_neg hfg, hpoll]
    | some c =>
      by_cases hc : c ∈ st.clients
      · refine ⟨?_, Or.inl ?_⟩ <;>
          simp only [send_command, if_neg hlen, if_neg hbd, if_neg hfg,
            if_pos hc, hpoll]
      · refine ⟨?_, Or.inr ?_⟩ <;>
          simp only [send_command, if_neg hlen, if_neg hbd, if_neg hfg,
            if_neg hc]

/-- Witness for C9 at `wait = 0`: the outcome is the same under an empty
and a full waiter-table history, and the error is `needWait`. -/
theorem send_command_wait_lt_one_witness :
    (send_command scSt0 Cmd.pingPong Data.null (some 2) 0 7 0 0 okAll resNone =
      send_command scSt0 Cmd.pingPong Data.null (some 2) 0 7 0 0 okAll scRes0) ∧
    ((send_command scSt0 Cmd.pingPong Data.null (some 2) 0 7 0 0 okAll
        resNone).2.2 = Except.error SendErr.needWait ∨
      (send_command scSt0 Cmd.pingPong Data.null (some 2) 0 7 0 0 okAll
        resNone).2.2 = Except.error SendErr.notFoundClient) :=
  send_command_wait_lt_one scSt0 Cmd.pingPong Data.null (some 2) 0 7 0 0 okAll
    (by decide) (by decide) (by decide) resNone scRes0

/-- Claim C1 (amended): on the network path of `get_file` (no local blob,
some neighbour connected), any returned bytes have a digest equal to the
lowercased requested hash and are persisted under it, and when the
fetched bytes' digest differs from the lowercased hash the call fails
with the hash-mismatch `FileReceiveError`. -/
theorem get_file_hash_verified (st : PeerClientState) (fhash : List Nat)
    (H : List Nat → List Nat) (net : GetFileNet)
    (hmiss : lookupFile st.files (filePathOf (lowerStr fhash)) = none)
    (hcl : st.clients ≠ []) :
    (∀ st' b, get_file st fhash false H net = Except.ok (st', GetFileRet.raw b) →
        H b = lowerStr fhash ∧
        lookupFile st'.files (filePathOf (lowerStr fhash)) = some b) ∧
    (∀ hopeful fc raw,
        get_file_walk net.checks (Data.fileCheckReq (lowerStr fhash) 0)
            net.fallbackPick net.order = Except.ok hopeful →
        net.fetched hopeful
            (Data.fileGetReq (lowerStr fhash) (st.clients.map net.c2pf)) =
          Except.ok (fc, some raw) →
        H raw ≠ lowerStr fhash →
        get_file st fhash false H net = Except.error GetFileErr.hashMismatch) := by
  have hlen : ¬ st.clients.length = 0 := by
    simpa [List.length_eq_zero] using hcl
  constructor
  · intro st' b heq
    simp only [get_file, hmiss, if_neg hlen] at heq
    cases hwalk : get_file_walk net.checks (Data.fileCheckReq (lowerStr fhash) 0)
        net.fallbackPick net.order with
    | error e => simp only [hwalk] at heq; exact (Except.noConfusion heq)
    | ok hopeful =>
      simp only [hwalk] at heq
      cases hfetch : net.fetched hopeful
          (Data.fileGetReq (lowerStr fhash) (st.clients.map net.c2pf)) with
      | error e => simp only [hfetch] at heq; exact (Except.noConfusion heq)
      | ok pr =>
        obtain ⟨fc, rawOpt⟩ := pr
        simp only [hfetch] at heq
        cases rawOpt with
        | none => simp at heq
        | some raw =>
          by_cases hH : H raw = lowerStr fhash
          · simp only [if_pos hH, Except.ok.injEq, Prod.mk.injEq] at heq
            obtain ⟨hst, hb⟩ := heq
            cases hb
            subst hst
            refine ⟨hH, ?_⟩
            simp [lookupFile]
          · simp [if_neg hH] at heq
  · intro hopeful fc raw hwalk hfetch hH
    simp only [get_file, hmiss, if_neg hlen, hwalk, hfetch, if_neg hH]

/-- Witness for C1: a successful fetch whose digest equals the lowercased
hash and is persisted, and a mismatching fetch that fails with
hash-mismatch. -/
theorem get_file_hash_verified_witness :
    (gfH0 [7] = lowerStr (pyStr "ab") ∧
      lookupFile gfStW.files (filePathOf (lowerStr (pyStr "ab"))) = some [7]) ∧
    get_file gfSt0 (pyStr "ff") false gfH0 gfNet0 =
      Except.error GetFileErr.hashMismatch :=
  ⟨(get_file_hash_verified gfSt0 (pyStr "ab") gfH0 gfNet0 rfl (by decide)).1
      gfStW [7] (by decide),
    (get_file_hash_verified gfSt0 (pyStr "ff") gfH0 gfNet0 rfl (by decide)).2
      1 1 [7] (by decide) (by decide) (by decide)⟩

/-- Counterexample for C1 as stated: requesting the uppercase hash `AB`
while the network serves bytes whose (lowercase) digest is `ab` succeeds
and returns the bytes, whose digest differs from the requested hash
itself. -/
theorem get_file_uppercase_cex :
    get_file gfSt0 (pyStr "AB") false gfH0 gfNet0 =
      Except.ok (gfStW, GetFileRet.raw [7]) ∧
    gfH0 [7] ≠ pyStr "AB" := by
  constructor
  · decide
  · decide

/-- The shared request tail only garbage-collects `result`, never touches
the broadcast fan-out queue, and sends the main deliveries followed by
the ACK deliveries (ACK data = main delivery count). -/
theorem requestTail_spec (st : PeerClientState) (listen : Nat) (tp : Envelope)
    (allow : Option (List Client)) (deny ack_list : List Client)
    (sendOk : Client → Bool) :
    (requestTail st listen tp allow deny ack_list sendOk).1.result =
      (if listen * 100 < st.result.size then st.result.del_old else st.result) ∧
    (requestTail st listen tp allow deny ack_list sendOk).1.broadcast_que =
      st.broadcast_que ∧
    (requestTail st listen tp allow deny ack_list sendOk).2 =
      (sendMsg sendOk tp (allow.getD st.clients) deny).2 ++
        (if 0 < ack_list.length then
          (sendMsg sendOk
            ⟨MsgType.ack, tp.cmd,
              Data.int
                (((sendMsg sendOk tp (allow.getD st.clients) deny).1 : Nat) : Int),
              tp.time, tp.uuid⟩
            ack_list []).2
        else []) := by
  unfold requestTail
  by_cases c1 : listen * 100 < st.result.size <;>
    by_cases c2 : listen * 100 < st.direct_cmd_result.size <;>
      by_cases c3 : listen * 100 < st.file_client_path.size <;>
        by_cases c4 : 0 < ack_list.length <;>
          simp [c1, c2, c3, c4]

/-- Claim C3: a BROADCAST request whose uuid is already in the waiter
table, or in the broadcaster-marker set, or whose payload fails
`broadcast_check`, is dropped with no state change and nothing sent;
otherwise the handler stores `(sender, msg)` under the uuid, publishes the
item once on the broadcast fan-out queue, re-emits the payload as a
REQUEST with the same uuid to every connected neighbour except the sender
(delivery per neighbour subject to the transport), and then delivers the
sender an ACK whose data is the number of deliveries. -/
theorem type_request_broadcast_spec (st : PeerClientState) (listen : Nat)
    (client : Client) (msg : Envelope) (now : Int) (sendOk : Client → Bool)
    (bc : Data → Bool) :
    (st.result.include' msg.uuid = true ∨ msg.uuid ∈ st.waiting_ack ∨
        bc msg.data = false →
      type_request_broadcast st listen client msg now sendOk bc = (st, [])) ∧
    (st.result.include' msg.uuid = false → msg.uuid ∉ st.waiting_ack →
        bc msg.data = true →
      (type_request_broadcast st listen client msg now sendOk bc).1.result.get
          msg.uuid = some (client, Item.env msg) ∧
      (type_request_broadcast st listen client msg now sendOk bc).1.broadcast_que =
        st.broadcast_que ++ [(client, msg)] ∧
      (type_request_broadcast st listen client msg now sendOk bc).2 =
        broadcastDeliveries st client msg now sendOk ++
          broadcastAck st client msg now sendOk) := by
  constructor
  · intro h
    unfold type_request_broadcast
    by_cases h1 : st.result.include' msg.uuid = true
    · rw [if_pos h1]
    · rw [if_neg h1]
      by_cases h2 : msg.uuid ∈ st.waiting_ack
      · rw [if_pos h2]
      · rw [if_neg h2]
        have h3 : bc msg.data = false := by
          rcases h with h | h | h
          · exact absurd h h1
          · exact absurd h h2
          · exact h
        rw [if_pos (by simp [h3])]
  · intro h1 h2 h3
    have h0 : st.result.get msg.uuid = none := by
      unfold StackDict.include' at h1
      cases hx : st.result.get msg.uuid with
      | none => rfl
      | some v => rw [hx] at h1; simp at h1
    have hstep : type_request_broadcast st listen client msg now sendOk bc =
        requestTail
          { st with
              result := st.result.put msg.uuid (client, Item.env msg),
              broadcast_que := st.broadcast_que ++ [(client, msg)] }
          listen ⟨MsgType.request, msg.cmd, msg.data, now, msg.uuid⟩
          none [client] [client] sendOk := by
      simp only [type_request_broadcast,
        if_neg (show ¬ (st.result.include' msg.uuid = true) by simp [h1]),
        if_neg h2,
        if_neg (show ¬ ((!bc msg.data) = true) by simp [h3])]
    rw [hstep]
    obtain ⟨hr, hbq, hsent⟩ := requestTail_spec
      { st with
          result := st.result.put msg.uuid (client, Item.env msg),
          broadcast_que := st.broadcast_que ++ [(client, msg)] }
      listen ⟨MsgType.request, msg.cmd, msg.data, now, msg.uuid⟩
      none [client] [client] sendOk
    refine ⟨?_, ?_, ?_⟩
    · rw [hr]
      split
      · exact StackDict.get_del_old_put _ _ _ h0
      · exact StackDict.get_put_self _ _ _ h0
    · rw [hbq]
    · rw [hsent]
      cases hok : sendOk client <;>
        simp [sendMsg_eq, broadcastDeliveries, broadcastAck, hok]

set_option maxRecDepth 4000 in
/-- Claim C6 (amended): after sending, `send_command` polls the waiter
table every 10 ms up to `wait` seconds (forced to 20 for FILE_GET); when
the poll finds the stored entry `(cl, it)`, every command other than
BROADCAST returns exactly that entry and leaves the broadcast fan-out
queue alone, while BROADCAST republishes `(cl, request-envelope)` on the
fan-out queue and returns `(cl, d)` where `d` is the `data` argument of
`send_command`, not the stored payload. -/
theorem send_command_match (st : PeerClientState) (cmd : Cmd) (data : Data)
    (clientArg : Option Client) (wait : ℚ) (uuid : Nat) (now : Int)
    (pick : Client) (sendOk : Client → Bool)
    (resAt : Nat → Option (Client × Item)) (cl : Client) (it : Item)
    (hne : st.clients ≠ [])
    (hcase : cmd = Cmd.broadcast ∨ cmd = Cmd.fileDelete ∨
      (cmd ≠ Cmd.fileGet ∧ clientArg = none) ∨
      (∃ c, clientArg = some c ∧ c ∈ st.clients))
    (hw : 1 ≤ wait)
    (hhit : firstHit resAt (pollCount (if cmd = Cmd.fileGet then 20 else wait)) =
        some (cl, it)) :
    (cmd ≠ Cmd.broadcast →
      (send_command st cmd data clientArg wait uuid now pick sendOk resAt).2.2 =
          Except.ok (cl, it) ∧
      (send_command st cmd data clientArg wait uuid now pick sendOk
          resAt).1.broadcast_que = st.broadcast_que) ∧
    (cmd = Cmd.broadcast →
      (send_command st cmd data clientArg wait uuid now pick sendOk resAt).2.2 =
          Except.ok (cl, Item.dat data) ∧
      (send_command st cmd data clientArg wait uuid now pick sendOk
          resAt).1.broadcast_que =
        st.broadcast_que ++ [(cl, ⟨MsgType.request, cmd, data, now, uuid⟩)]) := by
  have hlen : ¬ st.clients.length = 0 := by
    simpa [List.length_eq_zero] using hne
  have hnw : ¬ (wait < 1) := not_lt.mpr hw
  by_cases hb : cmd = Cmd.broadcast
  · have hhit' : firstHit resAt (pollCount wait) = some (cl, it) := by
      rwa [if_neg (show ¬ (cmd = Cmd.fileGet) by simp [hb])] at hhit
    have hout : send_command st cmd data clientArg wait uuid now pick sendOk resAt =
        ({ st with
            waiting_ack := st.waiting_ack ++ [uuid],
            broadcast_que := st.broadcast_que ++
              [(cl, ⟨MsgType.request, cmd, data, now, uuid⟩)] },
          (sendMsg sendOk ⟨MsgType.request, cmd, data, now, uuid⟩ st.clients []).2,
          Except.ok (cl, Item.dat data)) := by
      simp only [send_command, if_neg hlen, if_pos (Or.inl hb), send_command_poll,
        if_neg hnw, hhit', if_pos hb]
    exact ⟨fun h => absurd hb h, fun _ => by rw [hout]; exact ⟨rfl, rfl⟩⟩
  · refine ⟨fun _ => ?_, fun h => absurd h hb⟩
    by_cases hd : cmd = Cmd.fileDelete
    · have hhit' : firstHit resAt (pollCount wait) = some (cl, it) := by
        rwa [if_neg (show ¬ (cmd = Cmd.fileGet) by simp [hd])] at hhit
      have hout : send_command st cmd data clientArg wait uuid now pick sendOk
          resAt =
          ({ st with waiting_ack := st.waiting_ack ++ [uuid] },
            (sendMsg sendOk ⟨MsgType.request, cmd, data, now, uuid⟩ st.clients
              []).2,
            Except.ok (cl, it)) := by
        simp only [send_command, if_neg hlen, if_pos (Or.inr hd),
          send_command_poll, if_neg hnw, hhit', if_neg hb]
      rw [hout]
      exact ⟨rfl, rfl⟩
    · have hbd : ¬ (cmd = Cmd.broadcast ∨ cmd = Cmd.fileDelete) := by
        intro h
        exact h.elim hb hd
      by_cases hg : cmd = Cmd.fileGet
      · obtain ⟨c, hca, hcm⟩ : ∃ c, clientArg = some c ∧ c ∈ st.clients := by
          rcases hcase with h | h | h | h
          · exact absurd h hb
          · exact absurd h hd
          · exact absurd hg h.1
          · exact h
        have hhit' : firstHit resAt (pollCount 20) = some (cl, it) := by
          rwa [if_pos hg] at hhit
        have hnw20 : ¬ ((20 : ℚ) < 1) := by norm_num
        subst hca
        have hout : send_command st cmd data (some c) wait uuid now pick sendOk
            resAt =
            ({ st with file_client_path :=
                st.file_client_path.put uuid (Shipper.senderMark, some c) },
              (sendMsg sendOk ⟨MsgType.request, cmd, data, now, uuid⟩ [c] []).2,
              Except.ok (cl, it)) := by
          simp only [send_command, if_neg hlen, if_neg hbd, if_pos hg,
            if_pos hcm, send_command_poll, if_neg hnw20, hhit', if_neg hb]
        rw [hout]
        exact ⟨rfl, rfl⟩
      · have hhit' : firstHit resAt (pollCount wait) = some (cl, it) := by
          rwa [if_neg hg] at hhit
        rcases hcase with h | h | h | h
        · exact absurd h hb
        · exact absurd h hd
        · obtain ⟨-, hca⟩ := h
          subst hca
          have hout : send_command st cmd data none wait uuid now pick sendOk
              resAt =
              (st,
                (sendMsg sendOk ⟨MsgType.request, cmd, data, now, uuid⟩ [pick]
                  []).2,
                Except.ok (cl, it)) := by
            simp only [send_command, if_neg hlen, if_neg hbd, if_neg hg,
              send_command_poll, if_neg hnw, hhit', if_neg hb]
          rw [hout]
          exact ⟨rfl, rfl⟩
        · obtain ⟨c, hca, hcm⟩ := h
          subst hca
          have hout : send_command st cmd data (some c) wait uuid now pick sendOk
              resAt =
              (st,
                (sendMsg sendOk ⟨MsgType.request, cmd, data, now, uuid⟩ [c]
                  []).2,
                Except.ok (cl, it)) := by
            simp only [send_command, if_neg hlen, if_neg hbd, if_neg hg,
              if_pos hcm, send_command_poll, if_neg hnw, hhit', if_neg hb]
          rw [hout]
          exact ⟨rfl, rfl⟩

set_option maxRecDepth 10000 in
/-- Witness for C6: a PING_PONG call returns exactly the stored entry and
leaves the fan-out queue alone; a BROADCAST call republishes on the
fan-out queue and returns its own `data` argument. -/
theorem send_command_match_witness :
    ((send_command scSt0 Cmd.pingPong Data.null (some 2) 5 7 0 0 okAll
        scRes0).2.2 = Except.ok (2, Item.dat (Data.int 3)) ∧
      (send_command scSt0 Cmd.pingPong Data.null (some 2) 5 7 0 0 okAll
        scRes0).1.broadcast_que = []) ∧
    ((send_command scSt0 Cmd.broadcast (Data.str (pyStr "x")) none 5 111111111 0
        0 okAll scRes0).2.2 =
        Except.ok (2, Item.dat (Data.str (pyStr "x"))) ∧
      (send_command scSt0 Cmd.broadcast (Data.str (pyStr "x")) none 5 111111111 0
        0 okAll scRes0).1.broadcast_que =
        [(2, ⟨MsgType.request, Cmd.broadcast, Data.str (pyStr "x"), 0,
          111111111⟩)]) :=
  ⟨(send_command_match scSt0 Cmd.pingPong Data.null (some 2) 5 7 0 0 okAll
      scRes0 2 (Item.dat (Data.int 3)) (by decide)
      (Or.inr (Or.inr (Or.inr ⟨2, rfl, by decide⟩))) (by decide) (by decide)).1
      (by decide),
    (send_command_match scSt0 Cmd.broadcast (Data.str (pyStr "x")) none 5
      111111111 0 0 okAll scRes0 2 (Item.dat (Data.int 3)) (by decide)
      (Or.inl rfl) (by decide) (by decide)).2 rfl⟩

set_option maxRecDepth 10000 in
/-- Counterexample for C6 as stated: for BROADCAST, what `send_command`
returns on a match is not the entry stored in the waiter table — the
table holds `(2, 3)` at every poll, yet the call returns its own payload
argument. -/
theorem send_command_broadcast_cex :
    (send_command scSt0 Cmd.broadcast (Data.str (pyStr "x")) none 5 111111111 0 0
        okAll scRes0).2.2 ≠ Except.ok (2, Item.dat (Data.int 3)) ∧
    scRes0 0 = some (2, Item.dat (Data.int 3)) := by
  constructor
  · decide
  · rfl

end P2p
